import Mathlib

/-!
Shallow embedding of the `any_dyn` Rust crate (src/lib.rs and
src/traitcast.rs): type-erased trait object references.

Modelling choices, all taken from the source:

* Trait object types (`dyn Trait`) are an abstract type `TraitTy`.
* A `Platform` bundles the Rust compiler/platform facts the crate relies on:
  `core::any::TypeId::of` as an injective function into `Nat` (Rust guarantees
  distinct `'static` types have distinct `TypeId`s), the layout
  (size/alignment) of `DynMetadata<Dyn>` per trait object type, and the layout
  of the canonical placeholder `DynMetadata<()>`.
* References `&Dyn` / `&mut Dyn` and raw pointers `NonNull<Dyn>` all carry the
  same runtime data: a thin (non-null) address plus the vtable metadata bit
  pattern; each is modelled as a `DynRef`, an address/metadata pair.
* `AnyDynPtr::new` contains an `assert_eq!` comparing the two layouts, which
  panics on mismatch; panics are modelled as the `Except.error` branch.
  `AnyDynPtr::cast` has no panic path and is modelled as an `Option`-returning
  total function, exactly following its source.
-/

namespace AnyDynModel

/-- Models `core::alloc::Layout` as used by `AnyDynPtr::new`: a size and an
alignment. -/
structure Layout where
  size : Nat
  align : Nat
deriving DecidableEq, Repr

/-- The Rust compiler/platform facts that the crate relies on, for an abstract
collection `TraitTy` of trait object types:

* `typeIdOf t` models `core::any::TypeId::of::<Dyn>()`; `typeIdOf_inj` is
  Rust's guarantee that distinct `'static` types have distinct `TypeId`s;
* `dynMetadataLayout t` models `Layout::new::<DynMetadata<Dyn>>()`;
* `placeholderLayout` models `Layout::new::<DynMetadata<()>>()`, the canonical
  placeholder layout that `AnyDynPtr::new` asserts against. -/
structure Platform (TraitTy : Type) where
  typeIdOf : TraitTy → Nat
  typeIdOf_inj : Function.Injective typeIdOf
  dynMetadataLayout : TraitTy → Layout
  placeholderLayout : Layout

variable {TraitTy : Type}

/-- A reference (or equivalently a `NonNull` raw pointer) to a trait object of
type `t`: the thin address of the instance plus the dispatch-metadata bit
pattern (`DynMetadata<Dyn>`, in practice a vtable pointer). `&Dyn`,
`&mut Dyn` and `NonNull<Dyn>` all carry exactly this data at runtime. -/
structure DynRef (TraitTy : Type) (t : TraitTy) where
  addr : Nat
  meta : Nat
deriving DecidableEq, Repr

/-- Models `NonNull::as_ref` / `NonNull::as_mut`: the reference obtained by
dereferencing a pointer denotes the same instance with the same metadata. -/
def DynRef.as_ref (p : DynRef TraitTy t) : DynRef TraitTy t := p

/-- `AnyDynPtr` (src/lib.rs lines 237-242): thin data pointer, erased metadata
bytes (`MaybeUninit<DynMetadata<()>>` holding the original bit pattern
verbatim), and the `TypeId` of the erased trait object type. -/
structure AnyDynPtr where
  thin : Nat
  metadata : Nat
  type_id : Nat
deriving DecidableEq, Repr

/-- The panic message of the `assert_eq!` in `AnyDynPtr::new`. -/
def layoutAssertMsg : String :=
  "DynMetadata types no longer have fixed layout regardless of type parameter"

/-- `AnyDynPtr::new` (src/lib.rs lines 251-286). First the `assert_eq!`
comparing `Layout::new::<DynMetadata<Dyn>>()` with
`Layout::new::<DynMetadata<()>>()`, which panics (`Except.error`) on mismatch;
then the construction: the thin address of `from`, the metadata bit pattern
copied verbatim, and `TypeId::of::<Dyn>()`. -/
def AnyDynPtr.new (pl : Platform TraitTy) (t : TraitTy) (r : DynRef TraitTy t) :
    Except String AnyDynPtr :=
  if pl.dynMetadataLayout t = pl.placeholderLayout then
    Except.ok { thin := r.addr, metadata := r.meta, type_id := pl.typeIdOf t }
  else
    Except.error layoutAssertMsg

/-- `AnyDynPtr::cast` (src/lib.rs lines 292-311): if `TypeId::of::<Dyn>()`
differs from the stored `type_id`, return `None`; otherwise reinterpret the
stored metadata bytes as `DynMetadata<Dyn>` and rebuild the fat pointer from
the stored thin pointer and that metadata. -/
def AnyDynPtr.cast (pl : Platform TraitTy) (j : TraitTy) (x : AnyDynPtr) :
    Option (DynRef TraitTy j) :=
  if pl.typeIdOf j ≠ x.type_id then
    none
  else
    some { addr := x.thin, meta := x.metadata }

/-- `AnyDyn` (src/lib.rs lines 99-103): an `AnyDynPtr` plus a phantom shared
lifetime, which carries no runtime data. -/
structure AnyDyn where
  ptr : AnyDynPtr
deriving DecidableEq, Repr

/-- `AnyDyn::new` (src/lib.rs lines 112-120): `AnyDynPtr::new(NonNull::from(from))`
wrapped by `from_raw`. -/
def AnyDyn.new (pl : Platform TraitTy) (t : TraitTy) (r : DynRef TraitTy t) :
    Except String AnyDyn :=
  (AnyDynPtr.new pl t r).map AnyDyn.mk

/-- `AnyDyn::cast` (src/lib.rs lines 140-150):
`self.ptr.cast::<Dyn>().map(|ptr| ptr.as_ref())`. -/
def AnyDyn.cast (pl : Platform TraitTy) (j : TraitTy) (a : AnyDyn) :
    Option (DynRef TraitTy j) :=
  (a.ptr.cast pl j).map DynRef.as_ref

/-- `AnyDyn::as_ptr` (src/lib.rs lines 153-156). -/
def AnyDyn.as_ptr (a : AnyDyn) : AnyDynPtr := a.ptr

/-- `AnyDynMut` (src/lib.rs lines 167-171): an `AnyDynPtr` plus a phantom
exclusive lifetime, which carries no runtime data. The source derives
`Clone, Copy` for it (line 167). -/
structure AnyDynMut where
  ptr : AnyDynPtr
deriving DecidableEq, Repr

/-- `AnyDynMut::new` (src/lib.rs lines 180-188). -/
def AnyDynMut.new (pl : Platform TraitTy) (t : TraitTy) (r : DynRef TraitTy t) :
    Except String AnyDynMut :=
  (AnyDynPtr.new pl t r).map AnyDynMut.mk

/-- `AnyDynMut::cast` (src/lib.rs lines 208-218):
`self.ptr.cast::<Dyn>().map(|mut ptr| ptr.as_mut())`. -/
def AnyDynMut.cast (pl : Platform TraitTy) (j : TraitTy) (a : AnyDynMut) :
    Option (DynRef TraitTy j) :=
  (a.ptr.cast pl j).map DynRef.as_ref

/-- `AnyDynMut::as_ptr` (src/lib.rs lines 221-224). -/
def AnyDynMut.as_ptr (a : AnyDynMut) : AnyDynPtr := a.ptr

/-- `AnyDynMut` derives `Clone, Copy` in the source (src/lib.rs line 167), so
safe code can duplicate a value freely; this models making such a copy. -/
def AnyDynMut.copy (a : AnyDynMut) : AnyDynMut × AnyDynMut := (a, a)

/-- `DynTypeId` (src/lib.rs lines 420-424): a transparent wrapper around
`core::any::TypeId`, with derived `PartialEq, Eq, PartialOrd, Ord, Hash`
acting on the wrapped `TypeId`. -/
structure DynTypeId where
  type_id : Nat
deriving DecidableEq, Repr

/-- `DynTypeId::of` (src/lib.rs lines 430-437): wraps `TypeId::of::<Dyn>()`,
restricted to trait object types. -/
def DynTypeId.of (pl : Platform TraitTy) (t : TraitTy) : DynTypeId :=
  { type_id := pl.typeIdOf t }

/-- The derived `Ord` on `DynTypeId`: comparison of the wrapped `TypeId`
values. -/
def DynTypeId.le (a b : DynTypeId) : Prop :=
  a.type_id ≤ b.type_id

instance : DecidableRel DynTypeId.le :=
  fun a b => inferInstanceAs (Decidable (a.type_id ≤ b.type_id))

/-- The derived `Hash` on `DynTypeId`: determined by the wrapped `TypeId`. -/
def DynTypeId.hashVal (a : DynTypeId) : Nat :=
  a.type_id

/-- The `AsTraitObject` trait (src/traitcast.rs lines 30-46): an implementer
is characterised by its `as_trait_object` method, which maps a requested
`DynTypeId` to an optional erased trait object. -/
structure AsTraitObject where
  as_trait_object : DynTypeId → Option AnyDyn

/-- The default (non-overridden) body of `AsTraitObject::as_trait_object`
(src/traitcast.rs lines 41-45): `let _ = type_id; None`. -/
def defaultAsTraitObject (_type_id : DynTypeId) : Option AnyDyn :=
  none

/-- `cast_trait_object` (src/traitcast.rs lines 90-96):
`let any = obj.as_trait_object(DynTypeId::of::<Dyn>())?; any.cast::<Dyn>()`. -/
def cast_trait_object (pl : Platform TraitTy) (j : TraitTy) (obj : AsTraitObject) :
    Option (DynRef TraitTy j) :=
  match obj.as_trait_object (DynTypeId.of pl j) with
  | none => none
  | some any => any.cast pl j

/-- The composition described by the spec for `cast_capability`: look up the
identity of `J`, call the provider, and if a result is present downcast it;
written with `Option.bind` for comparison with `cast_trait_object`. -/
def cast_trait_object_spec (pl : Platform TraitTy) (j : TraitTy)
    (obj : AsTraitObject) : Option (DynRef TraitTy j) :=
  (obj.as_trait_object (DynTypeId.of pl j)).bind (fun any => any.cast pl j)

/-- An implementing type as seen by the `match_dyn_type_id` macros: the
address of the instance, and for each trait object type the vtable metadata
that the unsize coercion `self as &dyn Trait` attaches. -/
structure Implementer (TraitTy : Type) where
  addr : Nat
  vtable : TraitTy → Nat

/-- The coercion `self as &dyn Trait` (or `self as &mut dyn Trait`): the
instance address paired with the vtable for trait `t`. -/
def Implementer.asDyn (s : Implementer TraitTy) (t : TraitTy) : DynRef TraitTy t :=
  { addr := s.addr, meta := s.vtable t }

/-- The `match_dyn_type_id` macro (src/traitcast.rs lines 100-119), applied to
an ordered list of candidate traits: a chain of `else if` tests comparing
`type_id` with `DynTypeId::of::<dyn Trait>()` for each listed trait in order;
on the first match it constructs `AnyDyn::new(self as &dyn Trait)` (which may
panic in `AnyDynPtr::new`), and if no listed trait matches it returns `None`. -/
def match_dyn_type_id (pl : Platform TraitTy) (s : Implementer TraitTy)
    (type_id : DynTypeId) : List TraitTy → Except String (Option AnyDyn)
  | [] => Except.ok none
  | t :: ts =>
    if type_id = DynTypeId.of pl t then
      (AnyDyn.new pl t (s.asDyn t)).map some
    else
      match_dyn_type_id pl s type_id ts

/-- The `match_dyn_type_id_mut` macro (src/traitcast.rs lines 123-142): same
chain as `match_dyn_type_id` but constructing `AnyDynMut::new(self as &mut dyn
Trait)` on the first match. -/
def match_dyn_type_id_mut (pl : Platform TraitTy) (s : Implementer TraitTy)
    (type_id : DynTypeId) : List TraitTy → Except String (Option AnyDynMut)
  | [] => Except.ok none
  | t :: ts =>
    if type_id = DynTypeId.of pl t then
      (AnyDynMut.new pl t (s.asDyn t)).map some
    else
      match_dyn_type_id_mut pl s type_id ts

/-- A concrete platform for evaluating the model: trait object types are
`Nat`, `TypeId`s are the identity, and every `DynMetadata` layout equals the
placeholder layout (as on every current Rust target). -/
def natPl : Platform Nat where
  typeIdOf := fun n => n
  typeIdOf_inj := fun _ _ h => h
  dynMetadataLayout := fun _ => { size := 8, align := 8 }
  placeholderLayout := { size := 8, align := 8 }

/-- A concrete platform on which trait object type `5` has dispatch metadata
whose layout differs from the placeholder layout, violating the crate's
platform assumption for that trait. -/
def badPl : Platform Nat where
  typeIdOf := fun n => n
  typeIdOf_inj := fun _ _ h => h
  dynMetadataLayout := fun n => { size := 8 + n, align := 8 }
  placeholderLayout := { size := 8, align := 8 }

/-- A concrete reference to a trait object of type `0`: instance at address
`100` with vtable metadata `7`. -/
def refA : DynRef Nat 0 := { addr := 100, meta := 7 }

/-- A concrete reference to a trait object of type `5`, whose metadata layout
under `badPl` differs from the placeholder layout. -/
def refB : DynRef Nat 5 := { addr := 100, meta := 7 }

/-- A concrete implementer: instance at address `100`, with vtable
`10 * n + 1` for trait object type `n`. -/
def impl0 : Implementer Nat := { addr := 100, vtable := fun n => 10 * n + 1 }

theorem ptr_new_eq_ok_iff (pl : Platform TraitTy) (t : TraitTy)
    (r : DynRef TraitTy t) (x : AnyDynPtr) :
    AnyDynPtr.new pl t r = Except.ok x ↔
      pl.dynMetadataLayout t = pl.placeholderLayout ∧
        x = { thin := r.addr, metadata := r.meta, type_id := pl.typeIdOf t } := by
  unfold AnyDynPtr.new
  by_cases h : pl.dynMetadataLayout t = pl.placeholderLayout
  · simp [h, eq_comm]
  · simp [h]

theorem ptr_cast_ite (pl : Platform TraitTy) (j : TraitTy) (x : AnyDynPtr) :
    x.cast pl j =
      if pl.typeIdOf j = x.type_id then
        some { addr := x.thin, meta := x.metadata }
      else none := by
  unfold AnyDynPtr.cast
  by_cases h : pl.typeIdOf j = x.type_id <;> simp [h]

theorem DynTypeId.of_inj (pl : Platform TraitTy) (i j : TraitTy) :
    DynTypeId.of pl i = DynTypeId.of pl j ↔ i = j := by
  unfold DynTypeId.of
  constructor
  · intro h
    exact pl.typeIdOf_inj (DynTypeId.mk.injEq _ _ ▸ h)
  · intro h
    rw [h]

theorem find_of_unique_pred {α : Type} (p : α → Bool) (t0 : α)
    (hp : ∀ t, p t = true ↔ t = t0) :
    ∀ l : List α, (t0 ∈ l → l.find? p = some t0) ∧ (t0 ∉ l → l.find? p = none) := by
  intro l
  induction l with
  | nil => simp
  | cons a l ih =>
    by_cases ha : a = t0
    · subst ha
      refine ⟨fun _ => List.find?_cons_of_pos l ((hp a).mpr rfl), fun hn => ?_⟩
      exact absurd (List.mem_cons_self _ _) hn
    · have hpa : ¬ p a = true := fun hfa => ha ((hp a).mp hfa)
      rw [List.find?_cons_of_neg l hpa]
      constructor
      · intro hmem
        rcases List.mem_cons.mp hmem with h | h
        · exact absurd h.symm ha
        · exact ih.1 h
      · intro hnmem
        exact ih.2 (fun h => hnmem (List.mem_cons_of_mem a h))

theorem find_dyn_type_id_eq_of_perm (pl : Platform TraitTy) (type_id : DynTypeId)
    {ts ts' : List TraitTy} (hperm : ts.Perm ts') :
    ts.find? (fun t => decide (type_id = DynTypeId.of pl t)) =
      ts'.find? (fun t => decide (type_id = DynTypeId.of pl t)) := by
  by_cases hex : ∃ t0, type_id = DynTypeId.of pl t0
  · obtain ⟨t0, ht0⟩ := hex
    have hp : ∀ t, decide (type_id = DynTypeId.of pl t) = true ↔ t = t0 := by
      intro t
      rw [decide_eq_true_iff, ht0]
      constructor
      · intro h
        exact ((DynTypeId.of_inj pl t0 t).mp h).symm
      · intro h
        rw [h]
    by_cases hmem : t0 ∈ ts
    · rw [(find_of_unique_pred _ t0 hp ts).1 hmem,
        (find_of_unique_pred _ t0 hp ts').1 (hperm.mem_iff.mp hmem)]
    · rw [(find_of_unique_pred _ t0 hp ts).2 hmem,
        (find_of_unique_pred _ t0 hp ts').2 (fun h => hmem (hperm.mem_iff.mpr h))]
  · have hnone : ∀ l : List TraitTy,
        l.find? (fun t => decide (type_id = DynTypeId.of pl t)) = none := by
      intro l
      rw [List.find?_eq_none]
      intro t _
      simp only [decide_eq_true_iff]
      intro h
      exact hex ⟨t, h⟩
    rw [hnone ts, hnone ts']

theorem match_dyn_type_id_eq_find (pl : Platform TraitTy) (s : Implementer TraitTy)
    (type_id : DynTypeId) (ts : List TraitTy) :
    match_dyn_type_id pl s type_id ts =
      match ts.find? (fun t => decide (type_id = DynTypeId.of pl t)) with
      | some t => (AnyDyn.new pl t (s.asDyn t)).map some
      | none => Except.ok none := by
  induction ts with
  | nil => rfl
  | cons t ts ih =>
    by_cases h : type_id = DynTypeId.of pl t
    · rw [match_dyn_type_id, if_pos h,
        List.find?_cons_of_pos (p := fun x => decide (type_id = DynTypeId.of pl x))
          ts (decide_eq_true_iff.mpr h)]
    · rw [match_dyn_type_id, if_neg h,
        List.find?_cons_of_neg (p := fun x => decide (type_id = DynTypeId.of pl x))
          ts (by simp [h]), ih]

theorem match_dyn_type_id_mut_eq_find (pl : Platform TraitTy)
    (s : Implementer TraitTy) (type_id : DynTypeId) (ts : List TraitTy) :
    match_dyn_type_id_mut pl s type_id ts =
      match ts.find? (fun t => decide (type_id = DynTypeId.of pl t)) with
      | some t => (AnyDynMut.new pl t (s.asDyn t)).map some
      | none => Except.ok none := by
  induction ts with
  | nil => rfl
  | cons t ts ih =>
    by_cases h : type_id = DynTypeId.of pl t
    · rw [match_dyn_type_id_mut, if_pos h,
        List.find?_cons_of_pos (p := fun x => decide (type_id = DynTypeId.of pl x))
          ts (decide_eq_true_iff.mpr h)]
    · rw [match_dyn_type_id_mut, if_neg h,
        List.find?_cons_of_neg (p := fun x => decide (type_id = DynTypeId.of pl x))
          ts (by simp [h]), ih]

theorem map_as_ref {t : TraitTy} (o : Option (DynRef TraitTy t)) :
    o.map DynRef.as_ref = o := by
  cases o <;> rfl

theorem anyDyn_cast_eq_ptr_cast (pl : Platform TraitTy) (j : TraitTy) (a : AnyDyn) :
    AnyDyn.cast pl j a = a.ptr.cast pl j := by
  unfold AnyDyn.cast
  exact map_as_ref _

theorem anyDynMut_cast_eq_ptr_cast (pl : Platform TraitTy) (j : TraitTy)
    (a : AnyDynMut) :
    AnyDynMut.cast pl j a = a.ptr.cast pl j := by
  unfold AnyDynMut.cast
  exact map_as_ref _

theorem anyDyn_new_eq_ok_iff (pl : Platform TraitTy) (t : TraitTy)
    (r : DynRef TraitTy t) (a : AnyDyn) :
    AnyDyn.new pl t r = Except.ok a ↔ AnyDynPtr.new pl t r = Except.ok a.ptr := by
  obtain ⟨p⟩ := a
  unfold AnyDyn.new
  cases hx : AnyDynPtr.new pl t r <;> simp [Except.map]

theorem anyDynMut_new_eq_ok_iff (pl : Platform TraitTy) (t : TraitTy)
    (r : DynRef TraitTy t) (a : AnyDynMut) :
    AnyDynMut.new pl t r = Except.ok a ↔ AnyDynPtr.new pl t r = Except.ok a.ptr := by
  obtain ⟨p⟩ := a
  unfold AnyDynMut.new
  cases hx : AnyDynPtr.new pl t r <;> simp [Except.map]

theorem cast_after_new (pl : Platform TraitTy) (i j : TraitTy) (r : DynRef TraitTy i)
    (x : AnyDynPtr) (hx : AnyDynPtr.new pl i r = Except.ok x) :
    ((x.cast pl j).isSome ↔ j = i) ∧
      (j = i → x.cast pl j = some { addr := r.addr, meta := r.meta }) ∧
      (j ≠ i → x.cast pl j = none) := by
  obtain ⟨-, hxval⟩ := (ptr_new_eq_ok_iff pl i r x).mp hx
  subst hxval
  rw [ptr_cast_ite]
  by_cases h : pl.typeIdOf j = pl.typeIdOf i
  · have hji : j = i := pl.typeIdOf_inj h
    subst hji
    simp
  · have hji : j ≠ i := fun e => h (by rw [e])
    simp [h, hji]

/-- C1: constructing an opaque reference through trait object type `i`
(`AnyDynPtr::new`, and equally through the `AnyDyn` wrapper) and then
downcasting to `j` returns a non-empty result if and only if `j` is the same
trait object type as `i`; when `j` differs from `i` the result is `none`,
with no error or panic. -/
theorem c1_cast_nonempty_iff_same_trait (pl : Platform TraitTy) (i j : TraitTy)
    (r : DynRef TraitTy i) :
    (∀ x : AnyDynPtr, AnyDynPtr.new pl i r = Except.ok x →
      ((x.cast pl j).isSome ↔ j = i) ∧ (j ≠ i → x.cast pl j = none)) ∧
    (∀ a : AnyDyn, AnyDyn.new pl i r = Except.ok a →
      ((AnyDyn.cast pl j a).isSome ↔ j = i) ∧
        (j ≠ i → AnyDyn.cast pl j a = none)) := by
  constructor
  · intro x hx
    exact ⟨(cast_after_new pl i j r x hx).1, (cast_after_new pl i j r x hx).2.2⟩
  · intro a ha
    have hx := (anyDyn_new_eq_ok_iff pl i r a).mp ha
    rw [anyDyn_cast_eq_ptr_cast]
    exact ⟨(cast_after_new pl i j r a.ptr hx).1, (cast_after_new pl i j r a.ptr hx).2.2⟩

/-- Witness for C1 at a concrete input: constructing through trait type `0`
on `natPl` succeeds, and casting the result to trait type `1` is empty. -/
theorem c1_witness :
    AnyDynPtr.new natPl 0 refA = Except.ok (AnyDynPtr.mk 100 7 0) ∧
      (((AnyDynPtr.mk 100 7 0).cast natPl 1).isSome ↔ (1 : Nat) = 0) ∧
      (AnyDynPtr.mk 100 7 0).cast natPl 1 = none :=
  have hnew : AnyDynPtr.new natPl 0 refA = Except.ok (AnyDynPtr.mk 100 7 0) := rfl
  ⟨hnew, ((c1_cast_nonempty_iff_same_trait natPl 0 1 refA).1 _ hnew).1,
    ((c1_cast_nonempty_iff_same_trait natPl 0 1 refA).1 _ hnew).2 (by decide)⟩

/-- C2: `AnyDynPtr::new` panics exactly when the layout of the dispatch
metadata for the constructed trait object type differs from the canonical
placeholder layout, and is total (returns a value) otherwise; `AnyDynPtr::cast`
and the wrapper cast operations are total case analyses whose only outcomes
are `some` and `none`, with no panic path. -/
theorem c2_new_traps_iff_layout_mismatch (pl : Platform TraitTy) (t : TraitTy)
    (r : DynRef TraitTy t) :
    ((∃ x, AnyDynPtr.new pl t r = Except.ok x) ↔
      pl.dynMetadataLayout t = pl.placeholderLayout) ∧
    (AnyDynPtr.new pl t r = Except.error layoutAssertMsg ↔
      ¬ pl.dynMetadataLayout t = pl.placeholderLayout) ∧
    (∀ (x : AnyDynPtr) (j : TraitTy),
      x.cast pl j =
        if pl.typeIdOf j = x.type_id then
          some { addr := x.thin, meta := x.metadata }
        else none) ∧
    (∀ (a : AnyDyn) (j : TraitTy),
      AnyDyn.cast pl j a = none ∨ ∃ rr, AnyDyn.cast pl j a = some rr) ∧
    (∀ (a : AnyDynMut) (j : TraitTy),
      AnyDynMut.cast pl j a = none ∨ ∃ rr, AnyDynMut.cast pl j a = some rr) := by
  refine ⟨?_, ?_, fun x j => ptr_cast_ite pl j x, ?_, ?_⟩
  · unfold AnyDynPtr.new
    by_cases h : pl.dynMetadataLayout t = pl.placeholderLayout <;> simp [h]
  · unfold AnyDynPtr.new
    by_cases h : pl.dynMetadataLayout t = pl.placeholderLayout <;> simp [h]
  · intro a j
    cases h : AnyDyn.cast pl j a
    · exact Or.inl rfl
    · exact Or.inr ⟨_, rfl⟩
  · intro a j
    cases h : AnyDynMut.cast pl j a
    · exact Or.inl rfl
    · exact Or.inr ⟨_, rfl⟩

/-- Witness for C2 at a concrete input: on `badPl`, where trait type `5` has
mismatched metadata layout, construction panics with the assert message. -/
theorem c2_witness :
    AnyDynPtr.new badPl 5 refB = Except.error layoutAssertMsg :=
  (c2_new_traps_iff_layout_mismatch badPl 5 refB).2.1.mpr (by decide)

/-- C3: round trip: constructing an opaque reference from a reference `r` over
trait object type `i` (at all three layers: `AnyDynPtr::new`, `AnyDyn::new`,
`AnyDynMut::new`) and immediately downcasting to `i` returns exactly `r`: the
same instance address and the same dispatch metadata, so every method call
through the result resolves identically to a call on `r`. -/
theorem c3_roundtrip_returns_original (pl : Platform TraitTy) (i : TraitTy)
    (r : DynRef TraitTy i) :
    (∀ x : AnyDynPtr, AnyDynPtr.new pl i r = Except.ok x →
      x.cast pl i = some r) ∧
    (∀ a : AnyDyn, AnyDyn.new pl i r = Except.ok a →
      AnyDyn.cast pl i a = some r) ∧
    (∀ a : AnyDynMut, AnyDynMut.new pl i r = Except.ok a →
      AnyDynMut.cast pl i a = some r) := by
  refine ⟨fun x hx => ?_, fun a ha => ?_, fun a ha => ?_⟩
  · exact (cast_after_new pl i i r x hx).2.1 rfl
  · rw [anyDyn_cast_eq_ptr_cast]
    exact (cast_after_new pl i i r a.ptr ((anyDyn_new_eq_ok_iff pl i r a).mp ha)).2.1 rfl
  · rw [anyDynMut_cast_eq_ptr_cast]
    exact (cast_after_new pl i i r a.ptr
      ((anyDynMut_new_eq_ok_iff pl i r a).mp ha)).2.1 rfl

/-- Witness for C3 at a concrete input: erasing `refA` through trait type `0`
on `natPl` and casting back to `0` returns `refA` itself. -/
theorem c3_witness :
    AnyDynPtr.new natPl 0 refA = Except.ok (AnyDynPtr.mk 100 7 0) ∧
      (AnyDynPtr.mk 100 7 0).cast natPl 0 = some refA :=
  have hnew : AnyDynPtr.new natPl 0 refA = Except.ok (AnyDynPtr.mk 100 7 0) := rfl
  ⟨hnew, (c3_roundtrip_returns_original natPl 0 refA).1 _ hnew⟩

/-- C4: the claim that the exclusive wrapper cannot be copied while an
exclusive reference derived from it is alive fails on the code: `AnyDynMut`
derives `Clone, Copy` (src/lib.rs line 167) and `AnyDynMut::cast` takes
`self` by value, so safe code can duplicate the wrapper and obtain two
simultaneously live exclusive references to the same instance. This theorem
evaluates the model at such an input: both halves of a copy cast successfully
to the same trait and return a reference to the same instance. -/
theorem c4_copy_gives_two_exclusive_refs :
    ∃ a : AnyDynMut, AnyDynMut.new natPl 0 refA = Except.ok a ∧
      AnyDynMut.cast natPl 0 (AnyDynMut.copy a).1 = some refA ∧
      AnyDynMut.cast natPl 0 (AnyDynMut.copy a).2 = some refA :=
  ⟨AnyDynMut.mk (AnyDynPtr.mk 100 7 0), rfl, rfl, rfl⟩

/-- C5: the default (non-overridden) body of `AsTraitObject::as_trait_object`
returns `None` for every requested identity, including identities of traits
the implementing type happens to satisfy. -/
theorem c5_default_supports_nothing :
    ∀ type_id : DynTypeId, defaultAsTraitObject type_id = none :=
  fun _ => rfl

/-- C6: `cast_trait_object` equals the composition: call `as_trait_object`
with the identity of the requested trait object type, return `none` on `none`,
and otherwise downcast the returned `AnyDyn`; it constructs no opaque
reference itself. -/
theorem c6_cast_trait_object_is_composition (pl : Platform TraitTy) (j : TraitTy)
    (obj : AsTraitObject) :
    cast_trait_object pl j obj = cast_trait_object_spec pl j obj := by
  unfold cast_trait_object cast_trait_object_spec
  cases obj.as_trait_object (DynTypeId.of pl j) <;> rfl

/-- C7: the dispatch list helpers compare the requested identity against each
listed trait's identity in order and act on the first match (`List.find?`),
returning `none` when no listed trait matches; and for any permutation of the
candidate list the outcome is the same for every requested identity. -/
theorem c7_match_first_match_order_independent (pl : Platform TraitTy)
    (s : Implementer TraitTy) (type_id : DynTypeId) (ts ts' : List TraitTy) :
    (match_dyn_type_id pl s type_id ts =
      match ts.find? (fun t => decide (type_id = DynTypeId.of pl t)) with
      | some t => (AnyDyn.new pl t (s.asDyn t)).map some
      | none => Except.ok none) ∧
    (ts.Perm ts' →
      match_dyn_type_id pl s type_id ts = match_dyn_type_id pl s type_id ts') ∧
    (match_dyn_type_id_mut pl s type_id ts =
      match ts.find? (fun t => decide (type_id = DynTypeId.of pl t)) with
      | some t => (AnyDynMut.new pl t (s.asDyn t)).map some
      | none => Except.ok none) ∧
    (ts.Perm ts' →
      match_dyn_type_id_mut pl s type_id ts =
        match_dyn_type_id_mut pl s type_id ts') := by
  refine ⟨match_dyn_type_id_eq_find pl s type_id ts, fun hperm => ?_,
    match_dyn_type_id_mut_eq_find pl s type_id ts, fun hperm => ?_⟩
  · rw [match_dyn_type_id_eq_find, match_dyn_type_id_eq_find,
      find_dyn_type_id_eq_of_perm pl type_id hperm]
  · rw [match_dyn_type_id_mut_eq_find, match_dyn_type_id_mut_eq_find,
      find_dyn_type_id_eq_of_perm pl type_id hperm]

/-- Witness for C7 at a concrete input: for implementer `impl0` and requested
identity `1`, listing trait types `[0, 1]` and `[1, 0]` yields the same
result. -/
theorem c7_witness :
    List.Perm [0, 1] [1, 0] ∧
      match_dyn_type_id natPl impl0 (DynTypeId.mk 1) [0, 1] =
        match_dyn_type_id natPl impl0 (DynTypeId.mk 1) [1, 0] :=
  have hperm : List.Perm [0, 1] [1, 0] := List.Perm.swap 1 0 []
  ⟨hperm,
    (c7_match_first_match_order_independent natPl impl0 (DynTypeId.mk 1)
      [0, 1] [1, 0]).2.1 hperm⟩

/-- C8: `DynTypeId::of` is a pure function of the trait object type (in the
embedding, determinism is definitional); two identities are equal if and only
if they denote the same trait object type; the derived order is a reflexive,
antisymmetric, transitive, total order; and the derived hash is consistent
with equality. -/
theorem c8_identity_deterministic_collision_free (pl : Platform TraitTy) :
    (∀ i j : TraitTy, DynTypeId.of pl i = DynTypeId.of pl j ↔ i = j) ∧
    (∀ a : DynTypeId, DynTypeId.le a a) ∧
    (∀ a b : DynTypeId, DynTypeId.le a b → DynTypeId.le b a → a = b) ∧
    (∀ a b c : DynTypeId, DynTypeId.le a b → DynTypeId.le b c → DynTypeId.le a c) ∧
    (∀ a b : DynTypeId, DynTypeId.le a b ∨ DynTypeId.le b a) ∧
    (∀ a b : DynTypeId, a = b → DynTypeId.hashVal a = DynTypeId.hashVal b) := by
  refine ⟨fun i j => DynTypeId.of_inj pl i j, fun a => Nat.le_refl _, ?_, ?_, ?_, ?_⟩
  · intro a b hab hba
    obtain ⟨x⟩ := a
    obtain ⟨y⟩ := b
    exact congrArg DynTypeId.mk (Nat.le_antisymm hab hba)
  · intro a b c hab hbc
    exact Nat.le_trans hab hbc
  · intro a b
    exact Nat.le_total a.type_id b.type_id
  · intro a b h
    rw [h]

/-- Witness for C8 at concrete inputs: antisymmetry and hash consistency
applied at identity value `3`. -/
theorem c8_witness :
    (DynTypeId.mk 3 = DynTypeId.mk 3) ∧
      DynTypeId.hashVal (DynTypeId.mk 3) = DynTypeId.hashVal (DynTypeId.mk 3) :=
  ⟨(c8_identity_deterministic_collision_free natPl).2.2.1
      (DynTypeId.mk 3) (DynTypeId.mk 3) (Nat.le_refl 3) (Nat.le_refl 3),
    (c8_identity_deterministic_collision_free natPl).2.2.2.2.2
      (DynTypeId.mk 3) (DynTypeId.mk 3) rfl⟩

/-- C9: downcast is an idempotent pure lookup: any two `cast` calls with the
same target trait on the same `AnyDynPtr` value return the same result, with
the same instance address and the same dispatch metadata; the opaque
reference itself is taken immutably and is unchanged. -/
theorem c9_cast_idempotent (pl : Platform TraitTy) (x : AnyDynPtr) (j : TraitTy) :
    ∀ r1 r2 : DynRef TraitTy j, x.cast pl j = some r1 → x.cast pl j = some r2 →
      r1.addr = r2.addr ∧ r1.meta = r2.meta ∧ r1 = r2 := by
  intro r1 r2 h1 h2
  obtain rfl : r1 = r2 := Option.some.inj (h1.symm.trans h2)
  exact ⟨rfl, rfl, rfl⟩

/-- Witness for C9 at a concrete input: two casts of the same concrete
`AnyDynPtr` to trait type `0` agree. -/
theorem c9_witness :
    AnyDynPtr.cast natPl 0 (AnyDynPtr.mk 100 7 0) = some refA ∧
      (refA.addr = refA.addr ∧ refA.meta = refA.meta ∧ refA = refA) :=
  have h : AnyDynPtr.cast natPl 0 (AnyDynPtr.mk 100 7 0) = some refA := rfl
  ⟨h, c9_cast_idempotent natPl (AnyDynPtr.mk 100 7 0) 0 refA refA h h⟩

/-- C10: layer agreement: for every `AnyDyn` or `AnyDynMut` value, `cast`
returns exactly the result of the raw-layer `AnyDynPtr::cast` on `as_ptr`
(the dereference of the returned pointer adds nothing), so in particular the
two layers succeed on exactly the same inputs and point at the same
instance. -/
theorem c10_wrappers_agree_with_raw_layer (pl : Platform TraitTy) (j : TraitTy) :
    (∀ a : AnyDyn, AnyDyn.cast pl j a = AnyDynPtr.cast pl j (AnyDyn.as_ptr a)) ∧
    (∀ a : AnyDynMut,
      AnyDynMut.cast pl j a = AnyDynPtr.cast pl j (AnyDynMut.as_ptr a)) ∧
    (∀ a : AnyDyn,
      (AnyDyn.cast pl j a).isSome = (AnyDynPtr.cast pl j (AnyDyn.as_ptr a)).isSome) ∧
    (∀ a : AnyDynMut,
      (AnyDynMut.cast pl j a).isSome =
        (AnyDynPtr.cast pl j (AnyDynMut.as_ptr a)).isSome) := by
  refine ⟨fun a => ?_, fun a => ?_, fun a => ?_, fun a => ?_⟩ <;>
    simp [anyDyn_cast_eq_ptr_cast, anyDynMut_cast_eq_ptr_cast, AnyDyn.as_ptr,
      AnyDynMut.as_ptr]

end AnyDynModel
